import Mathlib

/-!
# Verification of the deep-deep Q-learning crawl frontier (qspider.py)

A shallow embedding of `deepdeep/spiders/qspider.py` (classes `TDRegressor`
and `QSpider`) together with the downloader middleware that reports
off-domain drops.  Python floats are modelled as rationals (`ℚ`); Python
dicts of scores are modelled as total functions `String → ℚ` together with
the ambient list of score-type keys (every score dict in the program is
keyed by `available_form_types()`).  Code of the repository that is not in
`src/` (`deepdeep.utils.MaxScores`, `deepdeep.utils.dict_subtract`,
`deepdeep.queues.RequestsPriorityQueue`, sklearn's `SGDRegressor`) is
modelled from the specification; each such definition carries a doc comment
saying so.
-/

/-- A per-domain state: mapping from score type to the best score seen.
Python dicts of scores are total functions here; the key set is carried
separately (all score dicts share the key set `available_form_types()`). -/
abbrev DState : Type := String → ℚ

/-- `get_constant_scores(0.0)`: all score types map to the given constant.
Modelled from the spec: `deepdeep.score_pages.get_constant_scores` is not in
`src/`; the spec describes zero scores for every known score type. -/
def constScores (v : ℚ) : DState := fun _ => v

/-- A link feature dict, as produced by `iter_link_dicts`: the target `url`
plus arbitrary numeric link features.  In the source this is one Python
dict that always contains the `url` key, hence it is never empty (relevant
to the truthiness test `if not a_t` in `learn_from_response`). -/
structure Link where
  url : String
  feats : List (String × ℚ)
deriving DecidableEq, Repr

/-- Node attributes stored in the networkx crawl graph.  A node that was
never touched carries the defaults (`visited = false`, all other fields
absent); `networkx.add_node` merges attributes, so each operation below
updates only the fields the source passes. -/
structure NodeAttrs where
  url : Option String := none
  visited : Bool := false
  ok : Option Bool := none
  scores : Option DState := none
  responseId : Option Nat := none

/-- Attributes of an untouched node. -/
def defaultAttrs : NodeAttrs := {}

/-- A directed edge of the crawl graph, carrying the `link` feature dict. -/
structure GEdge where
  src : Nat
  dst : Nat
  link : Link

/-- The crawl graph `self.G`: per-node attributes (default for nodes never
added) and the list of edges. -/
structure CrawlGraph where
  attrs : Nat → NodeAttrs
  edges : List GEdge

/-- The empty crawl graph created in `QSpider.__init__`. -/
def CrawlGraph.init : CrawlGraph := ⟨fun _ => defaultAttrs, []⟩

/-- `G.add_node(node_id, url=…, visited=True, ok=…, response_id=…)` as done
by `update_response_node`: merge semantics, `scores` is left untouched. -/
def CrawlGraph.setResponded (G : CrawlGraph) (n : Nat) (url : String)
    (ok : Bool) (rid : Nat) : CrawlGraph :=
  { G with attrs := fun m => if m = n then
      { G.attrs m with
        url := some url, visited := true, ok := some ok,
        responseId := some rid }
    else G.attrs m }

/-- `G.add_node(node_id, scores=observed_scores)` as done by
`store_observed_scores`: only the `scores` attribute is set. -/
def CrawlGraph.setScores (G : CrawlGraph) (n : Nat) (s : DState) : CrawlGraph :=
  { G with attrs := fun m => if m = n then
      { G.attrs m with scores := some s }
    else G.attrs m }

/-- `G.add_node(node_id, url=…, visited=False, ok=None, response_id=None)`
as done by `generate_out_nodes` for a freshly discovered link (the `scores`
keyword is commented out in the source, so `scores` is untouched). -/
def CrawlGraph.addDiscovered (G : CrawlGraph) (n : Nat) (url : String) : CrawlGraph :=
  { G with attrs := fun m => if m = n then
      { G.attrs m with
        url := some url, visited := false, ok := none,
        responseId := none }
    else G.attrs m }

/-- `G.add_node(node_id, visited=True, ok=False, scores=zero, response_id=…)`
as done by `on_offdomain_request_dropped` (the node's `url` is untouched). -/
def CrawlGraph.setDropped (G : CrawlGraph) (n : Nat) (rid : Nat) : CrawlGraph :=
  { G with attrs := fun m => if m = n then
      { G.attrs m with
        visited := true, ok := some false,
        scores := some (constScores 0), responseId := some rid }
    else G.attrs m }

/-- `G.add_edge(this_node_id, node_id, link=link)`. -/
def CrawlGraph.addEdge (G : CrawlGraph) (s d : Nat) (l : Link) : CrawlGraph :=
  { G with edges := G.edges ++ [⟨s, d, l⟩] }

/-- `_iter_incoming_link_dicts(node_id)`: the link dicts of all edges into
`node_id` (predecessors with their edge data). -/
def CrawlGraph.incomingLinks (G : CrawlGraph) (n : Nat) : List Link :=
  (G.edges.filter (fun e => e.dst = n)).map GEdge.link

/-- `_get_action(node_id)`: the first incoming link dict, or `none` for a
node with no incoming edge (a seed node): the source returns `None` and the
caller tests it with `if not a_t` (a link dict always contains the `url`
key, so it is never an empty dict and the test is a `None` test). -/
def CrawlGraph.getAction (G : CrawlGraph) (n : Nat) : Option Link :=
  (G.incomingLinks n).head?

/-- `deepdeep.utils.MaxScores`.  Modelled from the spec: `deepdeep.utils`
is not in `src/`.  Per spec §4.2: per-domain running maximum of every
observed score type, `update(domain, observed)` sets
`state[type] = max(state[type], observed[type])`, plus a domain count.
`log` is a ghost field recording every `update` call received (domain and
observed scores), used to state claims about which calls happen. -/
structure MaxScores where
  keys : List String
  scores : String → DState
  domains : List String
  log : List (String × DState)

/-- `MaxScores(available_form_types())` as built in `QSpider.__init__`:
every domain starts at zero for every score type. -/
def MaxScores.init (keys : List String) : MaxScores :=
  ⟨keys, fun _ => constScores 0, [], []⟩

/-- `MaxScores.update(domain, scores)`: pointwise running maximum for the
given domain; the domain is recorded as seen; the ghost log records the
call. -/
def MaxScores.update (t : MaxScores) (d : String) (obs : DState) : MaxScores :=
  { t with
    scores := fun d' => if d' = d then (fun k => max (t.scores d k) (obs k))
              else t.scores d',
    domains := if d ∈ t.domains then t.domains else t.domains ++ [d],
    log := t.log ++ [(d, obs)] }

/-- `len(self.domain_scores)`: the number of distinct domains seen. -/
def MaxScores.domainCount (t : MaxScores) : Nat := t.domains.length

/-- The SGD regression coefficients: weight vector and intercept.  sklearn's
`SGDRegressor` is an external collaborator; only what the source relies on
is modelled: `coef_` is `None` before the first `partial_fit` call and set
afterwards, and `predict` evaluates the linear model. -/
structure SGDCoef where
  w : List ℚ
  b : ℚ

/-- Linear-model evaluation used by `SGDRegressor.predict`. -/
def SGDCoef.eval (c : SGDCoef) (X : List ℚ) : ℚ :=
  (List.zipWith (· * ·) c.w X).sum + c.b

/-- The constant learning rate of the wrapped `SGDRegressor`. -/
def sgdEta : ℚ := 1 / 100

/-- Modelled from the spec: one incremental gradient step of
`SGDRegressor.partial_fit` toward the target `y` (sklearn's exact step is
external; spec §4.3 requires only "one incremental gradient step toward
`target`").  After the call the model is trained (`coef_` is set). -/
def sgdStep (c : Option SGDCoef) (X : List ℚ) (y : ℚ) : SGDCoef :=
  let c0 := c.getD ⟨X.map (fun _ => 0), 0⟩
  let g := y - c0.eval X
  ⟨List.zipWith (fun wi xi => wi + sgdEta * g * xi) c0.w X,
   c0.b + sgdEta * g⟩

/-- A stable hash of a feature name into one of 16 buckets.  Modelled from
the spec: the hashing action vectorizer (`score_links.get_vectorizer`) is
not in `src/`; spec §4.3 asks for string-keyed features hashed into a
fixed-width space. -/
def hashBucket (s : String) : Nat :=
  (s.toList.map Char.toNat).sum % 16

/-- Hashed encoding of a link-feature dict (fixed width 16). -/
def actionVec (a : Link) : List ℚ :=
  (List.range 16).map fun i =>
    ((a.feats.filter (fun kv => hashBucket kv.1 = i)).map (·.2)).sum

/-- Fixed-length numeric encoding of a `DState`: one dimension per known
score type (`DictVectorizer` fitted on `get_constant_scores(0.0)`). -/
def stateVec (keys : List String) (s : DState) : List ℚ := keys.map s

/-- `TDRegressor._vectorize(s, a)`: state vector then action vector
(`sparse.hstack`). -/
def vectorizeSA (keys : List String) (s : DState) (a : Link) : List ℚ :=
  stateVec keys s ++ actionVec a

/-- `TDRegressor`: discount `gamma`, the state-vectorizer key list, and the
wrapped `SGDRegressor`'s coefficients (`none` = `Q.coef_ is None`, i.e. no
training sample seen yet). -/
structure TDRegressor where
  gamma : ℚ
  keys : List String
  coef : Option SGDCoef

/-- `TDRegressor.__init__(gamma)`: a fresh, untrained model. -/
def TDRegressor.init (gamma : ℚ) (keys : List String) : TDRegressor :=
  ⟨gamma, keys, none⟩

/-- `TDRegressor.predict(s, a)`: `0.0` while `Q.coef_ is None`, otherwise
the linear model applied to the concatenated feature vector.  The function
is total: no error path exists. -/
def TDRegressor.predict (m : TDRegressor) (s : DState) (a : Link) : ℚ :=
  match m.coef with
  | none => 0
  | some c => c.eval (vectorizeSA m.keys s a)

/-- The `future_reward` of `TDRegressor.update`: `0.0` when
`a_t1 is None or self.Q.coef_ is None`, else `gamma * Q.predict(X_t1)[0]`. -/
def tdFuture (gamma : ℚ) (keys : List String) (coef : Option SGDCoef)
    (s_t1 : DState) (a_t1 : Option Link) : ℚ :=
  match a_t1, coef with
  | none, _ => 0
  | some _, none => 0
  | some a1, some c => gamma * c.eval (vectorizeSA keys s_t1 a1)

/-- `TDRegressor.update(s_t, a_t, r_t1, s_t1, a_t1)`: computes the TD
target `R_observed = r_t1 + future_reward` exactly as the source does and
fits one step toward it.  Returns the new model together with the target
that was passed to `partial_fit`. -/
def TDRegressor.update (m : TDRegressor) (s_t : DState) (a_t : Link)
    (r_t1 : ℚ) (s_t1 : DState) (a_t1 : Option Link) : TDRegressor × ℚ :=
  let R := r_t1 + tdFuture m.gamma m.keys m.coef s_t1 a_t1
  ({ m with coef := some (sgdStep m.coef (vectorizeSA m.keys s_t a_t) R) }, R)

/-- `predict` on an untrained model evaluates to `0.0`. -/
theorem TDRegressor.predict_none {m : TDRegressor} (h : m.coef = none)
    (s : DState) (a : Link) : m.predict s a = 0 := by
  simp [TDRegressor.predict, h]

/-- `predict` on a trained model evaluates the linear model. -/
theorem TDRegressor.predict_some {m : TDRegressor} {c : SGDCoef}
    (h : m.coef = some c) (s : DState) (a : Link) :
    m.predict s a = c.eval (vectorizeSA m.keys s a) := by
  simp [TDRegressor.predict, h]

/-- C2: for every call to `TDRegressor.update`, the regression target it
fits toward is `r_t1` when `a_t1` is absent or the model is untrained, and
`r_t1 + gamma * predict(s_t1, a_t1)` otherwise; moreover a fresh model is
untrained and any model that has received an `update` is trained, so
"untrained" coincides with "no training sample seen". -/
theorem c2_td_target (m : TDRegressor) (s_t : DState) (a_t : Link) (r_t1 : ℚ)
    (s_t1 : DState) (a_t1 : Option Link) (g : ℚ) (ks : List String) :
    (m.update s_t a_t r_t1 s_t1 a_t1).2 =
      (match a_t1, m.coef with
       | none, _ => r_t1
       | some _, none => r_t1
       | some a1, some _ => r_t1 + m.gamma * m.predict s_t1 a1)
    ∧ (TDRegressor.init g ks).coef = none
    ∧ ((m.update s_t a_t r_t1 s_t1 a_t1).1.coef).isSome = true := by
  refine ⟨?_, rfl, rfl⟩
  show r_t1 + tdFuture m.gamma m.keys m.coef s_t1 a_t1 = _
  cases a_t1 with
  | none => exact add_zero r_t1
  | some a1 =>
    cases h : m.coef with
    | none => exact add_zero r_t1
    | some c =>
      show r_t1 + tdFuture m.gamma m.keys (some c) s_t1 (some a1)
          = r_t1 + m.gamma * m.predict s_t1 a1
      rw [TDRegressor.predict_some h]
      rfl

/-- C3: `predict` on a freshly initialised model (before any `update`)
returns exactly `0.0`, for every state and action; the model is a total
function, so no error is possible. -/
theorem c3_predict_untrained (g : ℚ) (ks : List String) (s : DState) (a : Link) :
    (TDRegressor.init g ks).predict s a = 0 := rfl

/-- A scrapy request as the spider populates it in `generate_out_nodes`:
the target url, `meta['node_id']` (absent on seed requests), the integer
priority, and `meta['domain']` (set by `set_request_domain`). -/
structure QRequest where
  url : String
  nodeId : Option Nat
  priority : Int
  domain : String
deriving DecidableEq, Repr

/-- `deepdeep.queues.RequestsPriorityQueue(fifo=True)`.  Modelled from the
spec: `deepdeep/queues.py` is not in `src/`.  Entries are kept in push
order; selection is by maximal integer priority, first-pushed first among
equal priorities (spec §4.4). -/
abbrev RequestsPriorityQueue := List QRequest

/-- `RequestsPriorityQueue.next_request`: the entry `pop` would return —
the first entry with maximal priority — without removing it.  Modelled
from the spec (peek for TD bootstrap lookahead). -/
def nextRequest (q : RequestsPriorityQueue) : Option QRequest :=
  q.foldl (fun acc r =>
    match acc with
    | none => some r
    | some b => if b.priority < r.priority then some r else some b) none

/-- `RequestsPriorityQueue.update_all_priorities(fn)`.  Modelled from the
spec: recompute every entry's priority in place; a failed computation for
one entry (`fn r = none`, a raised exception in Python) must not abort the
sweep — that entry falls back to its previous priority (spec §7). -/
def updateAllPriorities (fn : QRequest → Option Int) :
    RequestsPriorityQueue → RequestsPriorityQueue
  | [] => []
  | r :: rest =>
      (match fn r with
       | some p => { r with priority := p }
       | none => r) :: updateAllPriorities fn rest

/-- `deepdeep.queues.BalancedPriorityQueue`: one `RequestsPriorityQueue`
per domain, created lazily.  Modelled from the spec (`queues.py` not in
`src/`): `get_domains()` enumerates known domains, `get_domain_queue` gives
direct access. -/
structure BalancedPriorityQueue where
  domains : List String
  queueOf : String → RequestsPriorityQueue

/-- The empty scheduler queue. -/
def BalancedPriorityQueue.init : BalancedPriorityQueue := ⟨[], fun _ => []⟩

/-- Push one request into its domain's queue (FIFO position at the end). -/
def BalancedPriorityQueue.push (q : BalancedPriorityQueue) (r : QRequest) :
    BalancedPriorityQueue :=
  ⟨if r.domain ∈ q.domains then q.domains else q.domains ++ [r.domain],
   fun d => if d = r.domain then q.queueOf d ++ [r] else q.queueOf d⟩

/-- Push a batch of requests (the scrapy engine schedules every request
yielded by `parse`). -/
def BalancedPriorityQueue.pushAll (q : BalancedPriorityQueue)
    (rs : List QRequest) : BalancedPriorityQueue :=
  rs.foldl BalancedPriorityQueue.push q

/-- A completed fetch as `parse` sees it: the scrapy response fields the
spider reads, together with the outputs of the external collaborators for
this response — the content scorer (`response_max_scores`) and the
in-domain link extractor (`iter_link_dicts`, already shuffled: the random
shuffle only permutes `links`, which the model takes as given). -/
structure Response where
  url : String
  domain : String
  status : Nat
  hasText : Bool
  nodeIdMeta : Option Nat
  pageScores : DState
  links : List Link

/-- The whole mutable state of `QSpider` that the embedded methods read or
write. -/
structure QState where
  G : CrawlGraph
  nodeIds : Nat
  domainScores : MaxScores
  responseCount : Nat
  scoresRecalculatedAt : Nat
  queues : BalancedPriorityQueue
  rlModel : TDRegressor

/-- `FLOAT_PRIORITY_MULTIPLIER` from `deepdeep.queues`.  Modelled from the
spec: the constant's value is not in `src/`; only its role (scaling a float
prediction to an integer priority) matters, no claim depends on the value. -/
def FLOAT_PRIORITY_MULTIPLIER : ℚ := 100000

/-- Python `int()` applied to a float: truncation toward zero. -/
def pyInt (q : ℚ) : Int := if 0 ≤ q then q.floor else q.ceil

/-- `get_request_priority(domain, node_id)` generalised over the graph it
reads (`generate_out_nodes` calls it while the graph is growing):
`int(self.rl_model.predict(s, a) * FLOAT_PRIORITY_MULTIPLIER)` with
`s = get_domain_state(domain)` and `a = _get_action(node_id)`.  A node with
no incoming link would make the Python vectorizer raise; every node the
source passes here has one (its edge is added first), so that branch is
unreachable and is given the junk value 0. -/
def getRequestPriorityG (G : CrawlGraph) (ds : MaxScores) (m : TDRegressor)
    (d : String) (nid : Nat) : Int :=
  match G.getAction nid with
  | some a => pyInt (m.predict (ds.scores d) a * FLOAT_PRIORITY_MULTIPLIER)
  | none => 0

/-- `QSpider.get_request_priority(domain, node_id)`. -/
def getRequestPriority (st : QState) (d : String) (nid : Nat) : Int :=
  getRequestPriorityG st.G st.domainScores st.rlModel d nid

/-- The closure `_get_priority(request)` of
`update_domain_request_priorities`: `if not node_id: return
request.priority` — Python truthiness, so an absent node id and a node id
of `0` both keep the previous priority. -/
def getPriorityFn (st : QState) (d : String) (r : QRequest) : Int :=
  match r.nodeId with
  | none => r.priority
  | some 0 => r.priority
  | some (Nat.succ k) => getRequestPriority st d (k + 1)

/-- `update_domain_request_priorities(domain)`: re-score every entry of one
domain's queue with the current estimator and domain state. -/
def updateDomainRequestPriorities (st : QState) (d : String) : QState :=
  { st with queues :=
      { st.queues with queueOf := fun d' =>
          if d' = d then updateAllPriorities (fun r => some (getPriorityFn st d r)) (st.queues.queueOf d') else st.queues.queueOf d' } }

/-- `update_request_priorities()` as fired by the periodic task (its
`min_response_count` argument is `None`): the threshold is
`max(500, len(self.domain_scores))`; if no more than that many responses
arrived since `_scores_recalculated_at`, nothing happens; otherwise every
domain of the scheduler queue is re-scored and the marker advances to the
current response count. -/
def updateRequestPriorities (st : QState) : QState :=
  if st.responseCount - st.scoresRecalculatedAt
      ≤ max 500 st.domainScores.domainCount then st
  else
    { st.queues.domains.foldl updateDomainRequestPriorities st with
      scoresRecalculatedAt := st.responseCount }

/-- `status == 200 and hasattr(response, 'text')` in `update_response_node`. -/
def respOk (resp : Response) : Bool := resp.status == 200 && resp.hasText

/-- `update_response_node(response)`: seed responses (no `node_id` meta)
get a fresh id from the counter; the node is marked visited with the
observed `ok`/`url`/`response_id` (merge semantics: `scores` untouched).
Returns the node id and the new state. -/
def updateResponseNode (st : QState) (resp : Response) : Nat × QState :=
  match resp.nodeIdMeta with
  | none =>
      (st.nodeIds,
       { st with nodeIds := st.nodeIds + 1,
                 G := st.G.setResponded st.nodeIds resp.url (respOk resp) st.responseCount })
  | some nid =>
      (nid, { st with G := st.G.setResponded nid resp.url (respOk resp) st.responseCount })

/-- The observed scores of `store_observed_scores`: the content scorer's
output for an `ok` node, `get_constant_scores(0.0)` otherwise (the node's
`ok` was set by `update_response_node` before this runs). -/
def observedScores (G : CrawlGraph) (nid : Nat) (resp : Response) : DState :=
  if (G.attrs nid).ok.getD false then resp.pageScores else constScores 0

/-- `r_t1 = sum(max(v, 0.0) for k, v in dict_subtract(observed, s_t).items())`.
`dict_subtract` (from `deepdeep.utils`, not in `src/`) is modelled from the
spec: pointwise subtraction over the score types, so the reward is
`Σ_k max(observed[k] - s_t[k], 0)`. -/
def rewardQ (keys : List String) (obs s : DState) : ℚ :=
  (keys.map (fun k => max (obs k - s k) 0)).sum

/-- The literal `0.1` in `if r_t1 > 0.1` of `learn_from_response`. -/
def rewardThreshold : ℚ := ⟨1, 10, by decide, by decide⟩

/-- The exact arguments of one `rl_model.update(s_t, a_t, r_t1, s_t1, a_t1)`
call made by `learn_from_response`. -/
structure UpdateCall where
  s_t : DState
  a_t : Link
  r_t1 : ℚ
  s_t1 : DState
  a_t1 : Option Link

/-- The result of `learn_from_response`: the new spider state, plus a
record of the `rl_model.update` call it made (`none` when it returned
early because the node has no incoming link). -/
structure LearnResult where
  state : QState
  updateCall : Option UpdateCall

/-- The first half of `learn_from_response`: `store_observed_scores` (store
the scorer's output on the node) and `update_domain_state` (feed the stored
scores to the per-domain running maximum; skipped when the score dict is
empty, i.e. when there are no score types at all). -/
def learnPre (st : QState) (nid : Nat) (resp : Response) : QState :=
  { st with
    G := st.G.setScores nid (observedScores st.G nid resp),
    domainScores :=
      if st.domainScores.keys.isEmpty then st.domainScores
      else st.domainScores.update resp.domain (observedScores st.G nid resp) }

/-- The TD-bootstrap lookahead of `learn_from_response`: peek the domain
queue's `next_request`; if it exists and carries a `node_id` (`is not None`
here — presence, not truthiness), take that node's action. -/
def lookahead (st : QState) (dom : String) : Option Link :=
  match nextRequest (st.queues.queueOf dom) with
  | none => none
  | some req =>
      match req.nodeId with
      | none => none
      | some nnid => st.G.getAction nnid

/-- The tail of `learn_from_response` once an action `a_t` exists: the
mini-sweep of the response's domain when `r_t1 > 0.1`, the lookahead
`a_t1`, and the `rl_model.update` call. -/
def learnTail (st2 : QState) (dom : String) (s_t s_t1 : DState) (r : ℚ)
    (a_t : Link) : QState × UpdateCall :=
  let st3 := if rewardThreshold < r then updateDomainRequestPriorities st2 dom else st2
  ({ st3 with rlModel := (st3.rlModel.update s_t a_t r s_t1 (lookahead st3 dom)).1 },
   ⟨s_t, a_t, r, s_t1, lookahead st3 dom⟩)

/-- The reward computed by `learn_from_response`:
`sum(max(v, 0.0) for k, v in dict_subtract(observed_scores, s_t).items())`
where `s_t` is the domain state snapshotted from the pre-call tracker
(`get_domain_state(domain).copy()` is taken before `update_domain_state`). -/
def learnReward (st : QState) (nid : Nat) (resp : Response) : ℚ :=
  rewardQ st.domainScores.keys (observedScores st.G nid resp)
    (st.domainScores.scores resp.domain)

/-- `learn_from_response(node_id, response)`: store scores, snapshot
`s_t = get_domain_state(domain).copy()` (taken before the tracker update),
update the tracker, compute `r_t1`, and — unless `_get_action` finds no
incoming link (`if not a_t: return`) — run the tail.  `updateCall` records
the exact arguments of the `rl_model.update` call, `none` when no call was
made. -/
def learnFromResponse (st : QState) (nid : Nat) (resp : Response) : LearnResult :=
  match (learnPre st nid resp).G.getAction nid with
  | none => ⟨learnPre st nid resp, none⟩
  | some a_t =>
      ⟨(learnTail (learnPre st nid resp) resp.domain
          (st.domainScores.scores resp.domain)
          ((learnPre st nid resp).domainScores.scores resp.domain)
          (learnReward st nid resp) a_t).1,
       some (learnTail (learnPre st nid resp) resp.domain
          (st.domainScores.scores resp.domain)
          ((learnPre st nid resp).domainScores.scores resp.domain)
          (learnReward st nid resp) a_t).2⟩

/-- The body of the `for link in links` loop of `generate_out_nodes`,
threading the growing graph and node counter: add the discovered node and
its single incoming edge, compute the initial priority with the current
estimator against the updated graph, and emit the scrapy request
(`meta = {node_id, domain}`). -/
def generateGo (ds : MaxScores) (m : TDRegressor) (dom : String) (tid : Nat) :
    CrawlGraph → Nat → List Link → CrawlGraph × Nat × List QRequest
  | G, cnt, [] => (G, cnt, [])
  | G, cnt, l :: ls =>
      ((generateGo ds m dom tid ((G.addDiscovered cnt l.url).addEdge tid cnt l) (cnt + 1) ls).1,
       (generateGo ds m dom tid ((G.addDiscovered cnt l.url).addEdge tid cnt l) (cnt + 1) ls).2.1,
       ⟨l.url, some cnt,
        getRequestPriorityG ((G.addDiscovered cnt l.url).addEdge tid cnt l) ds m dom cnt,
        dom⟩ ::
       (generateGo ds m dom tid ((G.addDiscovered cnt l.url).addEdge tid cnt l) (cnt + 1) ls).2.2)

/-- `generate_out_nodes(response, this_node_id)`: run the loop over the
extracted links, returning the updated spider state and the yielded
requests. -/
def generateOutNodes (st : QState) (resp : Response) (tid : Nat) :
    QState × List QRequest :=
  ({ st with
     G := (generateGo st.domainScores st.rlModel resp.domain tid st.G st.nodeIds resp.links).1,
     nodeIds := (generateGo st.domainScores st.rlModel resp.domain tid st.G st.nodeIds resp.links).2.1 },
   (generateGo st.domainScores st.rlModel resp.domain tid st.G st.nodeIds resp.links).2.2)

/-- The node id `parse` works with: `update_response_node`'s result after
`increase_response_count`. -/
def respondedNid (st : QState) (resp : Response) : Nat :=
  (updateResponseNode { st with responseCount := st.responseCount + 1 } resp).1

/-- The spider state right after `increase_response_count()` and
`update_response_node(response)` in `parse`. -/
def respondedSt (st : QState) (resp : Response) : QState :=
  (updateResponseNode { st with responseCount := st.responseCount + 1 } resp).2

/-- `if self.G.node[node_id]['ok']` in `parse`. -/
def respondedOk (st : QState) (resp : Response) : Bool :=
  (((respondedSt st resp).G.attrs (respondedNid st resp)).ok).getD false

/-- `parse(response)`: count the response, update the response's node,
generate out-links when the response is ok (`if self.G.node[node_id]['ok']`),
then learn.  Returns the new state and the yielded requests. -/
def processResponse (st : QState) (resp : Response) : QState × List QRequest :=
  ((learnFromResponse
      (if respondedOk st resp
       then (generateOutNodes (respondedSt st resp) resp (respondedNid st resp)).1
       else respondedSt st resp)
      (respondedNid st resp) resp).state,
   if respondedOk st resp
   then (generateOutNodes (respondedSt st resp) resp (respondedNid st resp)).2
   else [])

/-- `on_offdomain_request_dropped(request)`: `if not node_id` — Python
truthiness again, so an absent node id and a node id of `0` are both
logged and skipped with no graph update (`super()` only does spider-generic
bookkeeping; the tracker and graph are owned by `QSpider` and the source
never touches the tracker here). -/
def onOffdomainDrop (st : QState) (req : QRequest) : QState :=
  match req.nodeId with
  | none => st
  | some 0 => st
  | some (Nat.succ k) =>
      { st with G := st.G.setDropped (k + 1) st.responseCount }

/-- The spider plus its environment: the spider state and the set of
requests that have been yielded by `parse` and not yet resolved.  The
environment model over-approximates the scrapy engine: any pending request
may produce a response or be dropped by the offsite middleware at any
time, seed responses (no `node_id` meta) may arrive at any time, and the
periodic re-prioritisation task may fire at any time. -/
structure SysState where
  q : QState
  pending : List QRequest

/-- `QSpider.__init__`: empty graph, node counter at 0,
`MaxScores(available_form_types())`, zero counters, empty scheduler queue,
fresh `TDRegressor(gamma)`. -/
def initQState (keys : List String) (gamma : ℚ) : QState :=
  ⟨CrawlGraph.init, 0, MaxScores.init keys, 0, 0,
   BalancedPriorityQueue.init, TDRegressor.init gamma keys⟩

/-- The crawl before any callback has fired. -/
def initSys (keys : List String) (gamma : ℚ) : SysState :=
  ⟨initQState keys gamma, []⟩

/-- One completed fetch: `parse` runs, its yielded requests are scheduled
(pushed to the BalancedPriorityQueue) and become pending. -/
def applyResponse (s : SysState) (resp : Response) : SysState :=
  ⟨{ (processResponse s.q resp).1 with
     queues := ((processResponse s.q resp).1).queues.pushAll (processResponse s.q resp).2 },
   s.pending ++ (processResponse s.q resp).2⟩

/-- One off-domain drop: the offsite middleware reported `request`; the
spider's `on_offdomain_request_dropped` runs and the request stops being
pending. -/
def applyDrop (s : SysState) (r : QRequest) : SysState :=
  ⟨onOffdomainDrop s.q r, s.pending.erase r⟩

/-- The states a crawl can reach: the initial state, plus the effect of
seed responses, responses to pending requests, off-domain drops of pending
requests, and firings of the periodic re-prioritisation task. -/
inductive Reach (keys : List String) (gamma : ℚ) : SysState → Prop
  | init : Reach keys gamma (initSys keys gamma)
  | seed (s : SysState) (resp : Response) (hs : Reach keys gamma s)
      (hm : resp.nodeIdMeta = none) : Reach keys gamma (applyResponse s resp)
  | fetched (s : SysState) (r : QRequest) (resp : Response)
      (hs : Reach keys gamma s) (hr : r ∈ s.pending)
      (hm : resp.nodeIdMeta = r.nodeId) : Reach keys gamma (applyResponse s resp)
  | dropped (s : SysState) (r : QRequest) (hs : Reach keys gamma s)
      (hr : r ∈ s.pending) : Reach keys gamma (applyDrop s r)
  | sweep (s : SysState) (hs : Reach keys gamma s) :
      Reach keys gamma ⟨updateRequestPriorities s.q, s.pending⟩

/-- Modelled from the spec: a store-passing rendering of
`deepdeep.utils.MaxScores` (not in `src/`) that makes aliasing explicit, to
settle whether `state(domain)`/`get_domain_state` hands out a live
reference or a copy.  `DomainState` values live in numbered cells; the
tracker owns one internal cell per domain (`liveCell`). -/
structure TrackerStore where
  cells : Nat → DState
  nextCell : Nat
  liveCell : List (String × Nat)

/-- The tracker's internal cell for a domain, if the domain was seen. -/
def TrackerStore.lookupCell (t : TrackerStore) (d : String) : Option Nat :=
  (t.liveCell.find? (fun p => p.1 == d)).map (·.2)

/-- The defaultdict behaviour: touching an unseen domain allocates its
internal cell, initialised to all-zero scores. -/
def TrackerStore.ensure (t : TrackerStore) (d : String) : TrackerStore × Nat :=
  match t.lookupCell d with
  | some c => (t, c)
  | none =>
      (⟨fun i => if i = t.nextCell then constScores 0 else t.cells i,
        t.nextCell + 1, t.liveCell ++ [(d, t.nextCell)]⟩, t.nextCell)

/-- `state(domain)` per the spec: return a fresh snapshot copy of the
domain's current state — a newly allocated cell holding a copy of the
internal cell's contents, never the internal cell itself. -/
def TrackerStore.stateOp (t : TrackerStore) (d : String) : TrackerStore × Nat :=
  (⟨fun i => if i = (t.ensure d).1.nextCell then (t.ensure d).1.cells (t.ensure d).2 else (t.ensure d).1.cells i,
    (t.ensure d).1.nextCell + 1, (t.ensure d).1.liveCell⟩,
   (t.ensure d).1.nextCell)

/-- `update(domain, observed)`: mutate the domain's internal cell in place
with the pointwise running maximum. -/
def TrackerStore.updateOp (t : TrackerStore) (d : String) (obs : DState) :
    TrackerStore :=
  { (t.ensure d).1 with cells := fun i =>
      if i = (t.ensure d).2 then (fun k => max ((t.ensure d).1.cells ((t.ensure d).2) k) (obs k)) else (t.ensure d).1.cells i }

/-- Well-formedness of a tracker store: every internal cell is allocated. -/
def TrackerStore.WF (t : TrackerStore) : Prop :=
  ∀ p ∈ t.liveCell, p.2 < t.nextCell

/-! ## Small characterisation lemmas (definitional) -/

theorem setResponded_attrs (G : CrawlGraph) (n : Nat) (u : String) (ok : Bool)
    (rid : Nat) (m : Nat) :
    (G.setResponded n u ok rid).attrs m =
      if m = n then
        { G.attrs m with url := some u, visited := true, ok := some ok,
                         responseId := some rid }
      else G.attrs m := rfl

theorem setScores_attrs (G : CrawlGraph) (n : Nat) (s : DState) (m : Nat) :
    (G.setScores n s).attrs m =
      if m = n then { G.attrs m with scores := some s } else G.attrs m := rfl

theorem addDiscovered_attrs (G : CrawlGraph) (n : Nat) (u : String) (m : Nat) :
    (G.addDiscovered n u).attrs m =
      if m = n then
        { G.attrs m with url := some u, visited := false, ok := none,
                         responseId := none }
      else G.attrs m := rfl

theorem setDropped_attrs (G : CrawlGraph) (n : Nat) (rid : Nat) (m : Nat) :
    (G.setDropped n rid).attrs m =
      if m = n then
        { G.attrs m with visited := true, ok := some false,
                         scores := some (constScores 0), responseId := some rid }
      else G.attrs m := rfl

theorem addEdge_attrs (G : CrawlGraph) (s d : Nat) (l : Link) (m : Nat) :
    ((G.addEdge s d l).attrs m) = G.attrs m := rfl

theorem udrp_G (st : QState) (d : String) :
    (updateDomainRequestPriorities st d).G = st.G := rfl

theorem udrp_nodeIds (st : QState) (d : String) :
    (updateDomainRequestPriorities st d).nodeIds = st.nodeIds := rfl

theorem udrp_domainScores (st : QState) (d : String) :
    (updateDomainRequestPriorities st d).domainScores = st.domainScores := rfl

theorem udrp_rlModel (st : QState) (d : String) :
    (updateDomainRequestPriorities st d).rlModel = st.rlModel := rfl

theorem udrp_responseCount (st : QState) (d : String) :
    (updateDomainRequestPriorities st d).responseCount = st.responseCount := rfl

theorem udrp_scoresRecalculatedAt (st : QState) (d : String) :
    (updateDomainRequestPriorities st d).scoresRecalculatedAt
      = st.scoresRecalculatedAt := rfl

theorem udrp_queues_domains (st : QState) (d : String) :
    (updateDomainRequestPriorities st d).queues.domains = st.queues.domains := rfl

theorem udrp_queueOf (st : QState) (d d' : String) :
    (updateDomainRequestPriorities st d).queues.queueOf d' =
      if d' = d then
        updateAllPriorities (fun r => some (getPriorityFn st d r))
          (st.queues.queueOf d')
      else st.queues.queueOf d' := rfl

theorem learnPre_G (st : QState) (nid : Nat) (resp : Response) :
    (learnPre st nid resp).G
      = st.G.setScores nid (observedScores st.G nid resp) := rfl

theorem learnPre_nodeIds (st : QState) (nid : Nat) (resp : Response) :
    (learnPre st nid resp).nodeIds = st.nodeIds := rfl

theorem learnTail_fst_G (st2 : QState) (dom : String) (s_t s_t1 : DState)
    (r : ℚ) (a_t : Link) : (learnTail st2 dom s_t s_t1 r a_t).1.G = st2.G := by
  show (if rewardThreshold < r then updateDomainRequestPriorities st2 dom else st2).G = st2.G
  rw [apply_ite QState.G, udrp_G, ite_self]

theorem learnTail_fst_nodeIds (st2 : QState) (dom : String) (s_t s_t1 : DState)
    (r : ℚ) (a_t : Link) :
    (learnTail st2 dom s_t s_t1 r a_t).1.nodeIds = st2.nodeIds := by
  show (if rewardThreshold < r then updateDomainRequestPriorities st2 dom else st2).nodeIds = st2.nodeIds
  rw [apply_ite QState.nodeIds, udrp_nodeIds, ite_self]

theorem learn_state_G (st : QState) (nid : Nat) (resp : Response) :
    (learnFromResponse st nid resp).state.G
      = st.G.setScores nid (observedScores st.G nid resp) := by
  unfold learnFromResponse
  split
  · exact learnPre_G st nid resp
  · rw [show ((⟨_, _⟩ : LearnResult)).state = _ from rfl, learnTail_fst_G]
    exact learnPre_G st nid resp

theorem learn_state_nodeIds (st : QState) (nid : Nat) (resp : Response) :
    (learnFromResponse st nid resp).state.nodeIds = st.nodeIds := by
  unfold learnFromResponse
  split
  · exact learnPre_nodeIds st nid resp
  · rw [show ((⟨_, _⟩ : LearnResult)).state = _ from rfl, learnTail_fst_nodeIds]
    exact learnPre_nodeIds st nid resp

/-- What one run of the `generate_out_nodes` loop does to the graph, the
node counter and the emitted requests: the counter advances by one per
link; nodes below the starting counter and at or above the final counter
keep their attributes; the freshly discovered nodes are unvisited with
their `scores` attribute untouched; every emitted request carries a node id
allocated during this run. -/
theorem generateGo_spec (ds : MaxScores) (m : TDRegressor) (dom : String)
    (tid : Nat) : ∀ (ls : List Link) (G : CrawlGraph) (cnt : Nat),
    (generateGo ds m dom tid G cnt ls).2.1 = cnt + ls.length
    ∧ (∀ n, n < cnt → (generateGo ds m dom tid G cnt ls).1.attrs n = G.attrs n)
    ∧ (∀ n, cnt + ls.length ≤ n →
        (generateGo ds m dom tid G cnt ls).1.attrs n = G.attrs n)
    ∧ (∀ n, cnt ≤ n → n < cnt + ls.length →
        ((generateGo ds m dom tid G cnt ls).1.attrs n).visited = false
        ∧ ((generateGo ds m dom tid G cnt ls).1.attrs n).scores
            = (G.attrs n).scores)
    ∧ (∀ r ∈ (generateGo ds m dom tid G cnt ls).2.2,
        ∃ j, r.nodeId = some j ∧ cnt ≤ j ∧ j < cnt + ls.length) := by
  intro ls
  induction ls with
  | nil =>
    intro G cnt
    refine ⟨rfl, fun n _ => rfl, fun n _ => rfl, fun n h1 h2 => ?_,
            fun r hr => absurd hr (by simp [generateGo])⟩
    simp only [List.length_nil, Nat.add_zero] at h2
    omega
  | cons l ls ih =>
    intro G cnt
    obtain ⟨ih1, ih2, ih3, ih4, ih5⟩ :=
      ih ((G.addDiscovered cnt l.url).addEdge tid cnt l) (cnt + 1)
    simp only [generateGo]
    refine ⟨?_, ?_, ?_, ?_, ?_⟩
    · rw [ih1]; simp only [List.length_cons]; omega
    · intro n hn
      rw [ih2 n (by omega), addEdge_attrs, addDiscovered_attrs, if_neg (by omega)]
    · intro n hn
      simp only [List.length_cons] at hn
      rw [ih3 n (by omega), addEdge_attrs, addDiscovered_attrs, if_neg (by omega)]
    · intro n hn1 hn2
      simp only [List.length_cons] at hn2
      rcases Nat.eq_or_lt_of_le hn1 with heq | hlt
      · rw [ih2 n (by omega), addEdge_attrs, addDiscovered_attrs, if_pos heq.symm]
        exact ⟨rfl, rfl⟩
      · obtain ⟨hv, hs⟩ := ih4 n (by omega) (by omega)
        refine ⟨hv, ?_⟩
        rw [hs, addEdge_attrs, addDiscovered_attrs, if_neg (by omega)]
    · intro r hr
      simp only [List.mem_cons] at hr
      rcases hr with rfl | hr
      · exact ⟨cnt, rfl, Nat.le_refl cnt, by simp only [List.length_cons]; omega⟩
      · obtain ⟨j, hj1, hj2, hj3⟩ := ih5 r hr
        exact ⟨j, hj1, by omega, by simp only [List.length_cons]; omega⟩

/-! ## The crawl invariants -/

/-- C7's invariant on a graph: a node's `scores` attribute is present iff
`visited` is true. -/
def ScoresIffVisited (G : CrawlGraph) : Prop :=
  ∀ n, ((G.attrs n).scores).isSome = (G.attrs n).visited

/-- Node ids at or above the counter have never been touched. -/
def Untouched (st : QState) : Prop :=
  ∀ n, st.nodeIds ≤ n → st.G.attrs n = defaultAttrs

/-- Every pending request carries a node id that is nonzero and already
allocated. -/
def GoodPending (s : SysState) : Prop :=
  ∀ r ∈ s.pending, ∃ n, r.nodeId = some n ∧ 1 ≤ n ∧ n < s.q.nodeIds

/-- Once the counter has moved, node id 0 belongs to a fetched (seed)
response node: it is visited. -/
def ZeroSeed (st : QState) : Prop :=
  0 < st.nodeIds → ((st.G.attrs 0).visited) = true

/-- The inductive invariant of the crawl. -/
def SysInv (s : SysState) : Prop :=
  GoodPending s ∧ Untouched s.q ∧ ScoresIffVisited s.q.G ∧ ZeroSeed s.q

theorem respondedNid_seed (st : QState) (resp : Response)
    (hm : resp.nodeIdMeta = none) : respondedNid st resp = st.nodeIds := by
  unfold respondedNid updateResponseNode
  rw [hm]

theorem respondedSt_seed (st : QState) (resp : Response)
    (hm : resp.nodeIdMeta = none) :
    respondedSt st resp =
      { st with responseCount := st.responseCount + 1,
                nodeIds := st.nodeIds + 1,
                G := st.G.setResponded st.nodeIds resp.url (respOk resp)
                      (st.responseCount + 1) } := by
  unfold respondedSt updateResponseNode
  rw [hm]

theorem respondedNid_meta (st : QState) (resp : Response) (n : Nat)
    (hm : resp.nodeIdMeta = some n) : respondedNid st resp = n := by
  unfold respondedNid updateResponseNode
  rw [hm]

theorem respondedSt_meta (st : QState) (resp : Response) (n : Nat)
    (hm : resp.nodeIdMeta = some n) :
    respondedSt st resp =
      { st with responseCount := st.responseCount + 1,
                G := st.G.setResponded n resp.url (respOk resp)
                      (st.responseCount + 1) } := by
  unfold respondedSt updateResponseNode
  rw [hm]

theorem respondedSt_G_seed (st : QState) (resp : Response)
    (hm : resp.nodeIdMeta = none) :
    (respondedSt st resp).G
      = st.G.setResponded st.nodeIds resp.url (respOk resp)
          (st.responseCount + 1) := by
  rw [respondedSt_seed st resp hm]

theorem respondedSt_nodeIds_seed (st : QState) (resp : Response)
    (hm : resp.nodeIdMeta = none) :
    (respondedSt st resp).nodeIds = st.nodeIds + 1 := by
  rw [respondedSt_seed st resp hm]

theorem respondedSt_G_meta (st : QState) (resp : Response) (n : Nat)
    (hm : resp.nodeIdMeta = some n) :
    (respondedSt st resp).G
      = st.G.setResponded n resp.url (respOk resp) (st.responseCount + 1) := by
  rw [respondedSt_meta st resp n hm]

theorem respondedSt_nodeIds_meta (st : QState) (resp : Response) (n : Nat)
    (hm : resp.nodeIdMeta = some n) :
    (respondedSt st resp).nodeIds = st.nodeIds := by
  rw [respondedSt_meta st resp n hm]

/-- After `update_response_node`, the invariants hold except possibly the
scores-iff-visited equivalence at the responded node itself, which is now
visited (its scores are filled in by `store_observed_scores` later in the
same transition). -/
theorem respondedSt_inv (st : QState) (resp : Response)
    (hU : Untouched st) (hSV : ScoresIffVisited st.G) (hZ : ZeroSeed st)
    (hm : resp.nodeIdMeta = none
          ∨ ∃ n, resp.nodeIdMeta = some n ∧ 1 ≤ n ∧ n < st.nodeIds) :
    1 ≤ (respondedSt st resp).nodeIds
    ∧ st.nodeIds ≤ (respondedSt st resp).nodeIds
    ∧ respondedNid st resp < (respondedSt st resp).nodeIds
    ∧ Untouched (respondedSt st resp)
    ∧ ZeroSeed (respondedSt st resp)
    ∧ (∀ n, n ≠ respondedNid st resp →
        ((((respondedSt st resp).G.attrs n).scores).isSome)
          = ((respondedSt st resp).G.attrs n).visited)
    ∧ (((respondedSt st resp).G.attrs (respondedNid st resp)).visited) = true := by
  rcases hm with hm | ⟨n, hm, hn1, hn2⟩
  · rw [respondedNid_seed st resp hm]
    refine ⟨?_, ?_, ?_, ?_, ?_, ?_, ?_⟩
    · rw [respondedSt_nodeIds_seed st resp hm]; omega
    · rw [respondedSt_nodeIds_seed st resp hm]; omega
    · rw [respondedSt_nodeIds_seed st resp hm]; omega
    · intro k hk
      rw [respondedSt_nodeIds_seed st resp hm] at hk
      rw [respondedSt_G_seed st resp hm, setResponded_attrs,
          if_neg (by omega)]
      exact hU k (by omega)
    · intro _
      rw [respondedSt_G_seed st resp hm, setResponded_attrs]
      by_cases h0 : (0 : Nat) = st.nodeIds
      · rw [if_pos h0]
      · rw [if_neg h0]
        exact hZ (by omega)
    · intro k hk
      rw [respondedSt_G_seed st resp hm, setResponded_attrs, if_neg hk]
      exact hSV k
    · rw [respondedSt_G_seed st resp hm, setResponded_attrs, if_pos rfl]
  · rw [respondedNid_meta st resp n hm]
    refine ⟨?_, ?_, ?_, ?_, ?_, ?_, ?_⟩
    · rw [respondedSt_nodeIds_meta st resp n hm]; omega
    · rw [respondedSt_nodeIds_meta st resp n hm]
    · rw [respondedSt_nodeIds_meta st resp n hm]; omega
    · intro k hk
      rw [respondedSt_nodeIds_meta st resp n hm] at hk
      rw [respondedSt_G_meta st resp n hm, setResponded_attrs,
          if_neg (by omega)]
      exact hU k hk
    · intro h0
      rw [respondedSt_nodeIds_meta st resp n hm] at h0
      rw [respondedSt_G_meta st resp n hm, setResponded_attrs,
          if_neg (by omega)]
      exact hZ h0
    · intro k hk
      rw [respondedSt_G_meta st resp n hm, setResponded_attrs, if_neg hk]
      exact hSV k
    · rw [respondedSt_G_meta st resp n hm, setResponded_attrs, if_pos rfl]

theorem generateOutNodes_nodeIds (st : QState) (resp : Response) (tid : Nat) :
    (generateOutNodes st resp tid).1.nodeIds
      = st.nodeIds + resp.links.length := by
  show (generateGo st.domainScores st.rlModel resp.domain tid st.G
          st.nodeIds resp.links).2.1 = _
  exact (generateGo_spec _ _ _ _ resp.links st.G st.nodeIds).1

/-- After `generate_out_nodes`, the invariants hold except possibly at the
responded node (still visited, scores pending), and every emitted request
carries a fresh nonzero node id. -/
theorem generateOutNodes_inv (st1 : QState) (nid : Nat) (resp : Response)
    (h1 : 1 ≤ st1.nodeIds) (hnid : nid < st1.nodeIds)
    (hU1 : Untouched st1) (hZ1 : ZeroSeed st1)
    (hSV1 : ∀ n, n ≠ nid →
        (((st1.G.attrs n).scores).isSome) = (st1.G.attrs n).visited)
    (hvis : ((st1.G.attrs nid).visited) = true) :
    st1.nodeIds ≤ (generateOutNodes st1 resp nid).1.nodeIds
    ∧ Untouched (generateOutNodes st1 resp nid).1
    ∧ ZeroSeed (generateOutNodes st1 resp nid).1
    ∧ (∀ n, n ≠ nid →
        ((((generateOutNodes st1 resp nid).1.G.attrs n).scores).isSome)
          = ((generateOutNodes st1 resp nid).1.G.attrs n).visited)
    ∧ (((generateOutNodes st1 resp nid).1.G.attrs nid).visited) = true
    ∧ (∀ r ∈ (generateOutNodes st1 resp nid).2,
        ∃ j, r.nodeId = some j ∧ 1 ≤ j
          ∧ j < (generateOutNodes st1 resp nid).1.nodeIds) := by
  obtain ⟨hg1, hg2, hg3, hg4, hg5⟩ :=
    generateGo_spec st1.domainScores st1.rlModel resp.domain nid
      resp.links st1.G st1.nodeIds
  have hGeq : (generateOutNodes st1 resp nid).1.G.attrs
      = (generateGo st1.domainScores st1.rlModel resp.domain nid st1.G
          st1.nodeIds resp.links).1.attrs := rfl
  have hcnt := generateOutNodes_nodeIds st1 resp nid
  refine ⟨?_, ?_, ?_, ?_, ?_, ?_⟩
  · rw [hcnt]; omega
  · intro k hk
    rw [hcnt] at hk
    rw [show (generateOutNodes st1 resp nid).1.G.attrs k
          = (generateGo st1.domainScores st1.rlModel resp.domain nid st1.G
              st1.nodeIds resp.links).1.attrs k from rfl, hg3 k (by omega)]
    exact hU1 k (by omega)
  · intro h0
    rw [show (generateOutNodes st1 resp nid).1.G.attrs 0
          = (generateGo st1.domainScores st1.rlModel resp.domain nid st1.G
              st1.nodeIds resp.links).1.attrs 0 from rfl, hg2 0 (by omega)]
    exact hZ1 (by omega)
  · intro k hk
    rw [show (generateOutNodes st1 resp nid).1.G.attrs k
          = (generateGo st1.domainScores st1.rlModel resp.domain nid st1.G
              st1.nodeIds resp.links).1.attrs k from rfl]
    by_cases hlo : k < st1.nodeIds
    · rw [hg2 k hlo]; exact hSV1 k hk
    · by_cases hhi : st1.nodeIds + resp.links.length ≤ k
      · rw [hg3 k hhi]; exact hSV1 k hk
      · obtain ⟨hv, hs⟩ := hg4 k (by omega) (by omega)
        rw [hv, hs, hU1 k (by omega)]
        rfl
  · rw [show (generateOutNodes st1 resp nid).1.G.attrs nid
          = (generateGo st1.domainScores st1.rlModel resp.domain nid st1.G
              st1.nodeIds resp.links).1.attrs nid from rfl, hg2 nid hnid]
    exact hvis
  · intro r hr
    obtain ⟨j, hj1, hj2, hj3⟩ := hg5 r hr
    exact ⟨j, hj1, by omega, by rw [hcnt]; omega⟩

/-- `learn_from_response` restores the scores-iff-visited invariant at the
responded node (it always stores a scores dict there) and preserves the
other invariants. -/
theorem learn_inv (st2 : QState) (nid : Nat) (resp : Response)
    (hnid : nid < st2.nodeIds) (hU2 : Untouched st2) (hZ2 : ZeroSeed st2)
    (hSV2 : ∀ n, n ≠ nid →
        (((st2.G.attrs n).scores).isSome) = (st2.G.attrs n).visited)
    (hvis2 : ((st2.G.attrs nid).visited) = true) :
    Untouched (learnFromResponse st2 nid resp).state
    ∧ ScoresIffVisited (learnFromResponse st2 nid resp).state.G
    ∧ ZeroSeed (learnFromResponse st2 nid resp).state
    ∧ (learnFromResponse st2 nid resp).state.nodeIds = st2.nodeIds := by
  have hG := learn_state_G st2 nid resp
  have hN := learn_state_nodeIds st2 nid resp
  refine ⟨?_, ?_, ?_, hN⟩
  · intro k hk
    rw [hN] at hk
    rw [hG, setScores_attrs, if_neg (by omega)]
    exact hU2 k hk
  · intro k
    rw [hG, setScores_attrs]
    by_cases hk : k = nid
    · rw [if_pos hk, hk]
      simp only [Option.isSome_some]
      exact hvis2.symm
    · rw [if_neg hk]
      exact hSV2 k hk
  · intro h0
    rw [hN] at h0
    rw [hG, setScores_attrs]
    by_cases h0n : (0 : Nat) = nid
    · rw [if_pos h0n]
      show (st2.G.attrs 0).visited = true
      rw [h0n]
      exact hvis2
    · rw [if_neg h0n]
      exact hZ2 h0

theorem processResponse_char_ok (st : QState) (resp : Response)
    (hok : respondedOk st resp = true) :
    processResponse st resp
      = ((learnFromResponse
            (generateOutNodes (respondedSt st resp) resp (respondedNid st resp)).1
            (respondedNid st resp) resp).state,
         (generateOutNodes (respondedSt st resp) resp (respondedNid st resp)).2) := by
  unfold processResponse
  rw [hok]
  rfl

theorem processResponse_char_notok (st : QState) (resp : Response)
    (hok : respondedOk st resp = false) :
    processResponse st resp
      = ((learnFromResponse (respondedSt st resp) (respondedNid st resp)
            resp).state, []) := by
  unfold processResponse
  rw [hok]
  rfl

/-- One full `parse` transition preserves the crawl invariants, and every
request it yields carries a fresh nonzero node id below the new counter. -/
theorem processResponse_inv (st : QState) (resp : Response)
    (hU : Untouched st) (hSV : ScoresIffVisited st.G) (hZ : ZeroSeed st)
    (hm : resp.nodeIdMeta = none
          ∨ ∃ n, resp.nodeIdMeta = some n ∧ 1 ≤ n ∧ n < st.nodeIds) :
    Untouched (processResponse st resp).1
    ∧ ScoresIffVisited (processResponse st resp).1.G
    ∧ ZeroSeed (processResponse st resp).1
    ∧ st.nodeIds ≤ (processResponse st resp).1.nodeIds
    ∧ (∀ r ∈ (processResponse st resp).2,
        ∃ n, r.nodeId = some n ∧ 1 ≤ n
          ∧ n < (processResponse st resp).1.nodeIds) := by
  obtain ⟨hs1, hs2, hs3, hsU, hsZ, hsSV, hsvis⟩ :=
    respondedSt_inv st resp hU hSV hZ hm
  cases hok : respondedOk st resp with
  | true =>
    obtain ⟨hg0, hgU, hgZ, hgSV, hgvis, hgreq⟩ :=
      generateOutNodes_inv (respondedSt st resp) (respondedNid st resp) resp
        hs1 hs3 hsU hsZ hsSV hsvis
    obtain ⟨hlU, hlSV, hlZ, hlN⟩ :=
      learn_inv (generateOutNodes (respondedSt st resp) resp
          (respondedNid st resp)).1 (respondedNid st resp) resp
        (by omega) hgU hgZ hgSV hgvis
    rw [processResponse_char_ok st resp hok]
    refine ⟨hlU, hlSV, hlZ, by rw [hlN]; omega, ?_⟩
    intro r hr
    obtain ⟨j, hj1, hj2, hj3⟩ := hgreq r hr
    exact ⟨j, hj1, hj2, by rw [hlN]; omega⟩
  | false =>
    obtain ⟨hlU, hlSV, hlZ, hlN⟩ :=
      learn_inv (respondedSt st resp) (respondedNid st resp) resp
        hs3 hsU hsZ hsSV hsvis
    rw [processResponse_char_notok st resp hok]
    refine ⟨hlU, hlSV, hlZ, by rw [hlN]; omega, ?_⟩
    intro r hr
    exact absurd hr (List.not_mem_nil r)

theorem drop_char_none (st : QState) (r : QRequest) (hr : r.nodeId = none) :
    onOffdomainDrop st r = st := by
  unfold onOffdomainDrop
  rw [hr]

theorem drop_char_zero (st : QState) (r : QRequest) (hr : r.nodeId = some 0) :
    onOffdomainDrop st r = st := by
  unfold onOffdomainDrop
  rw [hr]

theorem drop_char_succ (st : QState) (r : QRequest) (k : Nat)
    (hr : r.nodeId = some (k + 1)) :
    onOffdomainDrop st r
      = { st with G := st.G.setDropped (k + 1) st.responseCount } := by
  unfold onOffdomainDrop
  rw [hr]

/-- `on_offdomain_request_dropped` preserves the crawl invariants, given
that any node id it touches is already allocated. -/
theorem drop_inv (st : QState) (r : QRequest)
    (hU : Untouched st) (hSV : ScoresIffVisited st.G) (hZ : ZeroSeed st)
    (hb : ∀ n, r.nodeId = some n → n < st.nodeIds) :
    Untouched (onOffdomainDrop st r)
    ∧ ScoresIffVisited (onOffdomainDrop st r).G
    ∧ ZeroSeed (onOffdomainDrop st r)
    ∧ (onOffdomainDrop st r).nodeIds = st.nodeIds := by
  cases hr : r.nodeId with
  | none => rw [drop_char_none st r hr]; exact ⟨hU, hSV, hZ, rfl⟩
  | some n =>
    cases n with
    | zero => rw [drop_char_zero st r hr]; exact ⟨hU, hSV, hZ, rfl⟩
    | succ k =>
      rw [drop_char_succ st r k hr]
      have hk := hb (k + 1) hr
      refine ⟨?_, ?_, ?_, rfl⟩
      · intro m hm
        have hm2 : st.nodeIds ≤ m := hm
        show (st.G.setDropped (k + 1) st.responseCount).attrs m = defaultAttrs
        rw [setDropped_attrs, if_neg (by omega)]
        exact hU m hm2
      · intro m
        show ((st.G.setDropped (k + 1) st.responseCount).attrs m).scores.isSome
          = ((st.G.setDropped (k + 1) st.responseCount).attrs m).visited
        rw [setDropped_attrs]
        by_cases hmk : m = k + 1
        · rw [if_pos hmk]; rfl
        · rw [if_neg hmk]; exact hSV m
      · intro h0
        have h02 : 0 < st.nodeIds := h0
        show ((st.G.setDropped (k + 1) st.responseCount).attrs 0).visited = true
        rw [setDropped_attrs, if_neg (by omega)]
        exact hZ h02

theorem foldUdrp_G (ds : List String) : ∀ s : QState,
    (ds.foldl updateDomainRequestPriorities s).G = s.G := by
  induction ds with
  | nil => intro s; rfl
  | cons d ds ih =>
    intro s
    show (ds.foldl updateDomainRequestPriorities
      (updateDomainRequestPriorities s d)).G = s.G
    rw [ih (updateDomainRequestPriorities s d), udrp_G]

theorem foldUdrp_nodeIds (ds : List String) : ∀ s : QState,
    (ds.foldl updateDomainRequestPriorities s).nodeIds = s.nodeIds := by
  induction ds with
  | nil => intro s; rfl
  | cons d ds ih =>
    intro s
    show (ds.foldl updateDomainRequestPriorities
      (updateDomainRequestPriorities s d)).nodeIds = s.nodeIds
    rw [ih (updateDomainRequestPriorities s d), udrp_nodeIds]

theorem sweep_G (st : QState) : (updateRequestPriorities st).G = st.G := by
  unfold updateRequestPriorities
  split
  · rfl
  · show (st.queues.domains.foldl updateDomainRequestPriorities st).G = st.G
    exact foldUdrp_G st.queues.domains st

theorem sweep_nodeIds (st : QState) :
    (updateRequestPriorities st).nodeIds = st.nodeIds := by
  unfold updateRequestPriorities
  split
  · rfl
  · show (st.queues.domains.foldl updateDomainRequestPriorities st).nodeIds
      = st.nodeIds
    exact foldUdrp_nodeIds st.queues.domains st

/-- The inductive invariant holds in every reachable crawl state. -/
theorem sysInv_reach (keys : List String) (gamma : ℚ) (s : SysState)
    (h : Reach keys gamma s) : SysInv s := by
  induction h with
  | init =>
    refine ⟨fun r hr => absurd hr (List.not_mem_nil r), fun n _ => rfl,
            fun n => rfl,
            fun h0 => absurd (show (0 : Nat) < 0 from h0) (Nat.lt_irrefl 0)⟩
  | seed s resp hs hm ih =>
    obtain ⟨ihP, ihU, ihSV, ihZ⟩ := ih
    obtain ⟨hU', hSV', hZ', hmono, hnew⟩ :=
      processResponse_inv s.q resp ihU ihSV ihZ (Or.inl hm)
    have hA : (applyResponse s resp).q.nodeIds
        = (processResponse s.q resp).1.nodeIds := rfl
    refine ⟨?_, hU', hSV', hZ'⟩
    intro r hr
    rcases List.mem_append.mp hr with hr | hr
    · obtain ⟨n, hn1, hn2, hn3⟩ := ihP r hr
      exact ⟨n, hn1, hn2, by rw [hA]; omega⟩
    · obtain ⟨n, hn1, hn2, hn3⟩ := hnew r hr
      exact ⟨n, hn1, hn2, by rw [hA]; omega⟩
  | fetched s r resp hs hr hm ih =>
    obtain ⟨ihP, ihU, ihSV, ihZ⟩ := ih
    obtain ⟨n, hn1, hn2, hn3⟩ := ihP r hr
    obtain ⟨hU', hSV', hZ', hmono, hnew⟩ :=
      processResponse_inv s.q resp ihU ihSV ihZ
        (Or.inr ⟨n, by rw [hm, hn1], hn2, hn3⟩)
    have hA : (applyResponse s resp).q.nodeIds
        = (processResponse s.q resp).1.nodeIds := rfl
    refine ⟨?_, hU', hSV', hZ'⟩
    intro r' hr'
    rcases List.mem_append.mp hr' with hr' | hr'
    · obtain ⟨j, hj1, hj2, hj3⟩ := ihP r' hr'
      exact ⟨j, hj1, hj2, by rw [hA]; omega⟩
    · obtain ⟨j, hj1, hj2, hj3⟩ := hnew r' hr'
      exact ⟨j, hj1, hj2, by rw [hA]; omega⟩
  | dropped s r hs hr ih =>
    obtain ⟨ihP, ihU, ihSV, ihZ⟩ := ih
    obtain ⟨n, hn1, hn2, hn3⟩ := ihP r hr
    obtain ⟨hU', hSV', hZ', hN⟩ :=
      drop_inv s.q r ihU ihSV ihZ
        (fun j hj => by rw [hn1] at hj; injection hj with hje; omega)
    have hD : (applyDrop s r).q.nodeIds = (onOffdomainDrop s.q r).nodeIds := rfl
    refine ⟨?_, hU', hSV', hZ'⟩
    intro r' hr'
    obtain ⟨j, hj1, hj2, hj3⟩ := ihP r' (List.mem_of_mem_erase hr')
    exact ⟨j, hj1, hj2, by rw [hD, hN]; omega⟩
  | sweep s hs ih =>
    obtain ⟨ihP, ihU, ihSV, ihZ⟩ := ih
    have hG := sweep_G s.q
    have hN := sweep_nodeIds s.q
    refine ⟨?_, ?_, ?_, ?_⟩
    · intro r hr
      obtain ⟨j, hj1, hj2, hj3⟩ := ihP r hr
      exact ⟨j, hj1, hj2, by rw [hN]; omega⟩
    · intro n hn
      rw [hN] at hn
      rw [hG]
      exact ihU n hn
    · intro n
      rw [hG]
      exact ihSV n
    · intro h0
      rw [hN] at h0
      rw [hG]
      exact ihZ h0

theorem rewardQ_nonneg (keys : List String) (obs s : DState) :
    0 ≤ rewardQ keys obs s := by
  unfold rewardQ
  apply List.sum_nonneg
  intro x hx
  obtain ⟨k, hk, rfl⟩ := List.mem_map.mp hx
  exact le_max_right _ _

theorem learnReward_nonneg (st : QState) (nid : Nat) (resp : Response) :
    0 ≤ learnReward st nid resp := rewardQ_nonneg _ _ _

/-- C1: whenever `learn_from_response` feeds a transition to the estimator,
the reward `r_t1` it passes equals `Σ_k max(observed[k] - s_t[k], 0)` over
the score types, where `s_t` is the domain-state snapshot taken from the
tracker before `update_domain_state` ran; and the reward is nonnegative
for every input, including when every observed score is below the domain's
best-known score. -/
theorem c1_reward_formula (st : QState) (nid : Nat) (resp : Response) :
    (learnFromResponse st nid resp).updateCall.elim True
      (fun c => c.r_t1 = rewardQ st.domainScores.keys
          (observedScores st.G nid resp) (st.domainScores.scores resp.domain)
        ∧ 0 ≤ c.r_t1)
    ∧ 0 ≤ learnReward st nid resp := by
  refine ⟨?_, learnReward_nonneg st nid resp⟩
  unfold learnFromResponse
  split
  · exact trivial
  · exact ⟨rfl, learnReward_nonneg st nid resp⟩

/-- C4: a fetched response whose node has no incoming edge in the crawl
graph (a seed node) produces no estimator update: `learn_from_response`
returns before `rl_model.update`, and the model is unchanged. -/
theorem c4_seed_no_update (st : QState) (nid : Nat) (resp : Response)
    (h : ∀ e ∈ st.G.edges, e.dst ≠ nid) :
    (learnFromResponse st nid resp).updateCall = none
    ∧ (learnFromResponse st nid resp).state.rlModel = st.rlModel := by
  have hfil : st.G.edges.filter (fun e => e.dst = nid) = [] := by
    rw [List.filter_eq_nil_iff]
    intro e he
    simp only [decide_eq_true_eq]
    exact h e he
  have hact : (learnPre st nid resp).G.getAction nid = none := by
    show (st.G.incomingLinks nid).head? = none
    unfold CrawlGraph.incomingLinks
    rw [hfil]
    rfl
  unfold learnFromResponse
  rw [hact]
  exact ⟨rfl, rfl⟩

/-- Example inputs used by the witnesses. -/
def exGamma : ℚ := ⟨1, 2, by decide, by decide⟩

def exKeys : List String := ["search"]

def exResp : Response :=
  ⟨"http://a.test/", "a.test", 200, true, none, constScores 0, []⟩

def exSt : QState := initQState exKeys exGamma

theorem c4_seed_no_update_witness :
    (learnFromResponse exSt 0 exResp).updateCall = none
    ∧ (learnFromResponse exSt 0 exResp).state.rlModel = exSt.rlModel :=
  c4_seed_no_update exSt 0 exResp
    (fun e he => absurd he (List.not_mem_nil e))

/-- C9: during a per-domain sweep, `update_all_priorities` processes every
entry: a failed computation (`fn r = none`) leaves that entry at its
previous priority, while every entry whose computation succeeds gets the
newly computed priority; no failure aborts the sweep. -/
theorem c9_sweep_fallback (fn : QRequest → Option Int)
    (q : RequestsPriorityQueue) :
    (updateAllPriorities fn q).length = q.length
    ∧ (∀ i r, q.get? i = some r →
        (updateAllPriorities fn q).get? i
          = some (match fn r with
                  | none => r
                  | some p => { r with priority := p })) := by
  constructor
  · induction q with
    | nil => rfl
    | cons a q ih =>
      simp only [updateAllPriorities, List.length_cons, ih]
  · intro i r h
    induction q generalizing i with
    | nil => simp at h
    | cons a q ih =>
      cases i with
      | zero =>
        rw [List.get?_cons_zero] at h
        injection h with h
        subst h
        cases hfa : fn a with
        | none =>
          simp only [updateAllPriorities, hfa, List.get?_cons_zero]
        | some p =>
          simp only [updateAllPriorities, hfa, List.get?_cons_zero]
      | succ j =>
        rw [List.get?_cons_succ] at h
        simp only [updateAllPriorities, List.get?_cons_succ]
        exact ih j h

def exReqA : QRequest := ⟨"http://a.test/1", some 1, 10, "a.test"⟩

def exReqB : QRequest := ⟨"http://a.test/2", some 2, 20, "a.test"⟩

/-- A priority computation that fails (raises) on the first entry only. -/
def exFn : QRequest → Option Int :=
  fun r => if r.nodeId = some 1 then none else some 42

theorem c9_sweep_fallback_witness :
    (updateAllPriorities exFn [exReqA, exReqB]).length = 2
    ∧ (updateAllPriorities exFn [exReqA, exReqB]).get? 0 = some exReqA
    ∧ (updateAllPriorities exFn [exReqA, exReqB]).get? 1
        = some { exReqB with priority := 42 } :=
  ⟨(c9_sweep_fallback exFn [exReqA, exReqB]).1,
   (c9_sweep_fallback exFn [exReqA, exReqB]).2 0 exReqA rfl,
   (c9_sweep_fallback exFn [exReqA, exReqB]).2 1 exReqB rfl⟩

theorem getPriorityFn_congr (s st : QState) (d : String) (r : QRequest)
    (hG : s.G = st.G) (hD : s.domainScores = st.domainScores)
    (hM : s.rlModel = st.rlModel) :
    getPriorityFn s d r = getPriorityFn st d r := by
  unfold getPriorityFn getRequestPriority getRequestPriorityG
  rw [hG, hD, hM]

theorem getPriorityFn_eq (st : QState) (d : String) (r : QRequest) :
    getPriorityFn st d r
      = (match r.nodeId with
         | none => r.priority
         | some 0 => r.priority
         | some (Nat.succ k) => getRequestPriority st d (k + 1)) := rfl

theorem getPriorityFn_set_priority (st : QState) (d : String) (r : QRequest)
    (p : Int) :
    getPriorityFn st d { r with priority := p }
      = (match r.nodeId with
         | none => p
         | some 0 => p
         | some (Nat.succ k) => getRequestPriority st d (k + 1)) := rfl

theorem updAll_total_idem (st : QState) (d : String) :
    ∀ l, updateAllPriorities (fun r => some (getPriorityFn st d r))
        (updateAllPriorities (fun r => some (getPriorityFn st d r)) l)
      = updateAllPriorities (fun r => some (getPriorityFn st d r)) l := by
  intro l
  induction l with
  | nil => rfl
  | cons r l ih =>
    simp only [updateAllPriorities]
    rw [ih]
    refine congrArg₂ List.cons ?_ rfl
    rw [getPriorityFn_set_priority]
    cases hr : r.nodeId with
    | none => rfl
    | some n =>
      cases n with
      | zero => rfl
      | succ k => rw [getPriorityFn_eq st d r, hr]

/-- The sweep loop `for domain in get_domains(): update_domain_request_priorities(domain)`
re-scores each listed domain's queue exactly once with priorities computed
from the (unchanging) estimator and domain state, and leaves unlisted
domains' queues alone. -/
theorem foldUdrp_queueOf (st : QState) : ∀ (ds : List String) (s : QState),
    s.G = st.G → s.domainScores = st.domainScores → s.rlModel = st.rlModel →
    ∀ d', (ds.foldl updateDomainRequestPriorities s).queues.queueOf d'
      = if d' ∈ ds
        then updateAllPriorities (fun r => some (getPriorityFn st d' r))
              (s.queues.queueOf d')
        else s.queues.queueOf d' := by
  intro ds
  induction ds with
  | nil =>
    intro s _ _ _ d'
    rw [if_neg (List.not_mem_nil d')]
    rfl
  | cons d ds ih =>
    intro s hG hD hM d'
    have hstep : (List.foldl updateDomainRequestPriorities s (d :: ds))
        = List.foldl updateDomainRequestPriorities
            (updateDomainRequestPriorities s d) ds := rfl
    rw [hstep, ih (updateDomainRequestPriorities s d)
          (by rw [udrp_G, hG]) (by rw [udrp_domainScores, hD])
          (by rw [udrp_rlModel, hM]) d',
        udrp_queueOf]
    have hfn : (fun r => some (getPriorityFn s d r))
        = (fun r => some (getPriorityFn st d r)) := by
      funext r
      rw [getPriorityFn_congr s st d r hG hD hM]
    by_cases hds : d' ∈ ds
    · rw [if_pos hds, if_pos (List.mem_cons_of_mem d hds)]
      by_cases hdd : d' = d
      · rw [if_pos hdd, hdd, hfn, updAll_total_idem st d]
      · rw [if_neg hdd]
    · rw [if_neg hds]
      by_cases hdd : d' = d
      · rw [if_pos hdd, if_pos (by rw [hdd]; exact List.mem_cons_self d ds),
            hdd, hfn]
      · rw [if_neg hdd, if_neg (by
          intro hmem
          rcases List.mem_cons.mp hmem with h | h
          · exact hdd h
          · exact hds h)]

/-- C5: the periodic sweep `update_request_priorities()` re-scores every
queued entry of every domain only when the number of completed fetches
since the last sweep exceeds `max(500, number of distinct domains seen)`;
at or below the threshold it is a no-op — no priority changes and the
`_scores_recalculated_at` marker does not advance. -/
theorem c5_sweep_threshold (st : QState) :
    (st.responseCount - st.scoresRecalculatedAt
        ≤ max 500 st.domainScores.domainCount →
      updateRequestPriorities st = st)
    ∧ (max 500 st.domainScores.domainCount
        < st.responseCount - st.scoresRecalculatedAt →
      (updateRequestPriorities st).scoresRecalculatedAt = st.responseCount
      ∧ ∀ d ∈ st.queues.domains,
          (updateRequestPriorities st).queues.queueOf d
            = updateAllPriorities (fun r => some (getPriorityFn st d r))
                (st.queues.queueOf d)) := by
  constructor
  · intro h
    unfold updateRequestPriorities
    rw [if_pos h]
  · intro h
    constructor
    · unfold updateRequestPriorities
      rw [if_neg (by omega)]
    · intro d hd
      unfold updateRequestPriorities
      rw [if_neg (by omega)]
      have hq := foldUdrp_queueOf st st.queues.domains st rfl rfl rfl d
      rw [if_pos hd] at hq
      exact hq

def exSt2 : QState :=
  { initQState exKeys exGamma with
    responseCount := 501,
    queues := ⟨["a.test"], fun _ => []⟩ }

theorem c5_sweep_threshold_witness :
    updateRequestPriorities exSt = exSt
    ∧ (updateRequestPriorities exSt2).scoresRecalculatedAt
        = exSt2.responseCount
    ∧ (updateRequestPriorities exSt2).queues.queueOf "a.test"
        = updateAllPriorities
            (fun r => some (getPriorityFn exSt2 "a.test" r))
            (exSt2.queues.queueOf "a.test") :=
  ⟨(c5_sweep_threshold exSt).1 (by decide),
   ((c5_sweep_threshold exSt2).2 (by decide)).1,
   ((c5_sweep_threshold exSt2).2 (by decide)).2 "a.test" (by decide)⟩

def exReq6 : QRequest := ⟨"http://b.test/x", some 1, 0, "a.test"⟩

/-- C6 counterexample: on a concrete off-domain drop of a request that
carries node id 1, the DomainStateTracker receives no update call at all —
its ghost update log stays empty instead of gaining the zero-scores entry
the claim asserts. -/
theorem c6_counterexample :
    ¬ ((onOffdomainDrop exSt exReq6).domainScores.log
        = exSt.domainScores.log ++ [("a.test", constScores 0)]) := by
  intro h
  have h0 : (onOffdomainDrop exSt exReq6).domainScores.log = [] := rfl
  rw [h0] at h
  have h1 : exSt.domainScores.log = [] := rfl
  rw [h1] at h
  simp at h

/-- C6 as amended: for every off-domain dropped request carrying a nonzero
node id, the drop handler records all-zero scores on the node, marking it
visited and failed; it performs no DomainStateTracker update — the tracker
is left entirely unchanged — which has the same effect on the per-domain
running maxima as an update with zero observed scores would, since a zero
update never changes a nonnegative running maximum. -/
theorem c6_drop_zero_scores (st : QState) (req : QRequest) (n : Nat)
    (hn : req.nodeId = some (n + 1)) :
    ((onOffdomainDrop st req).G.attrs (n + 1)).scores = some (constScores 0)
    ∧ ((onOffdomainDrop st req).G.attrs (n + 1)).visited = true
    ∧ ((onOffdomainDrop st req).G.attrs (n + 1)).ok = some false
    ∧ (onOffdomainDrop st req).domainScores = st.domainScores
    ∧ (∀ d d' k, 0 ≤ st.domainScores.scores d' k →
        (st.domainScores.update d (constScores 0)).scores d' k
          = st.domainScores.scores d' k) := by
  rw [drop_char_succ st req n hn]
  refine ⟨?_, ?_, ?_, rfl, ?_⟩
  · show ((st.G.setDropped (n + 1) st.responseCount).attrs (n + 1)).scores = _
    rw [setDropped_attrs, if_pos rfl]
  · show ((st.G.setDropped (n + 1) st.responseCount).attrs (n + 1)).visited = _
    rw [setDropped_attrs, if_pos rfl]
  · show ((st.G.setDropped (n + 1) st.responseCount).attrs (n + 1)).ok = _
    rw [setDropped_attrs, if_pos rfl]
  · intro d d' k hk
    unfold MaxScores.update
    by_cases hdd : d' = d
    · subst hdd
      show (if d' = d' then (fun k => max (st.domainScores.scores d' k) (constScores 0 k)) else st.domainScores.scores d') k = _
      rw [if_pos rfl]
      show max (st.domainScores.scores d' k) 0 = _
      exact max_eq_left hk
    · show (if d' = d then (fun k => max (st.domainScores.scores d k) (constScores 0 k)) else st.domainScores.scores d') k = _
      rw [if_neg hdd]

theorem c6_drop_zero_scores_witness :
    ((onOffdomainDrop exSt exReq6).G.attrs 1).scores = some (constScores 0)
    ∧ ((onOffdomainDrop exSt exReq6).G.attrs 1).visited = true
    ∧ ((onOffdomainDrop exSt exReq6).G.attrs 1).ok = some false
    ∧ (onOffdomainDrop exSt exReq6).domainScores = exSt.domainScores
    ∧ (exSt.domainScores.update "a.test" (constScores 0)).scores "b.test" "search"
        = exSt.domainScores.scores "b.test" "search" :=
  ⟨(c6_drop_zero_scores exSt exReq6 0 rfl).1,
   (c6_drop_zero_scores exSt exReq6 0 rfl).2.1,
   (c6_drop_zero_scores exSt exReq6 0 rfl).2.2.1,
   (c6_drop_zero_scores exSt exReq6 0 rfl).2.2.2.1,
   (c6_drop_zero_scores exSt exReq6 0 rfl).2.2.2.2 "a.test" "b.test" "search"
     (by decide)⟩

theorem ensure_char_some (t : TrackerStore) (d : String) (c : Nat)
    (h : t.lookupCell d = some c) : t.ensure d = (t, c) := by
  unfold TrackerStore.ensure
  rw [h]

theorem ensure_char_none (t : TrackerStore) (d : String)
    (h : t.lookupCell d = none) :
    t.ensure d
      = (⟨fun i => if i = t.nextCell then constScores 0 else t.cells i,
          t.nextCell + 1, t.liveCell ++ [(d, t.nextCell)]⟩, t.nextCell) := by
  unfold TrackerStore.ensure
  rw [h]

theorem ensure_WF (t : TrackerStore) (d : String) (h : t.WF) :
    (t.ensure d).1.WF := by
  cases hl : t.lookupCell d with
  | some c =>
    rw [ensure_char_some t d c hl]
    exact h
  | none =>
    rw [ensure_char_none t d hl]
    intro p hp
    rcases List.mem_append.mp hp with hp | hp
    · exact Nat.lt_succ_of_lt (h p hp)
    · rw [List.mem_singleton] at hp
      subst hp
      exact Nat.lt_succ_self _

theorem lookupCell_bound (t : TrackerStore) (d : String) (c : Nat) (N : Nat)
    (hb : ∀ p ∈ t.liveCell, p.2 < N) (hl : t.lookupCell d = some c) :
    c < N := by
  unfold TrackerStore.lookupCell at hl
  cases hf : t.liveCell.find? (fun p => p.1 == d) with
  | none => rw [hf] at hl; simp at hl
  | some p =>
    rw [hf] at hl
    simp only [Option.map_some'] at hl
    injection hl with hl
    rw [← hl]
    exact hb p (List.mem_of_find?_eq_some hf)

theorem updateOp_cells (t : TrackerStore) (d : String) (obs : DState)
    (i : Nat) :
    (t.updateOp d obs).cells i
      = if i = (t.ensure d).2
        then (fun k => max ((t.ensure d).1.cells ((t.ensure d).2) k) (obs k))
        else (t.ensure d).1.cells i := rfl

/-- C8: the cell handed out by `state(domain)` is a fresh snapshot copy,
not a live reference: a later `update` of the tracker — for the same or
any other domain — leaves the snapshot's contents unchanged. -/
theorem c8_snapshot_immutable (t : TrackerStore) (d d' : String)
    (obs : DState) (hWF : t.WF) :
    ((t.stateOp d).1.updateOp d' obs).cells (t.stateOp d).2
      = (t.stateOp d).1.cells (t.stateOp d).2 := by
  have hWF1 : ∀ p ∈ (t.ensure d).1.liveCell, p.2 < (t.ensure d).1.nextCell :=
    ensure_WF t d hWF
  rw [updateOp_cells]
  cases hl : (t.stateOp d).1.lookupCell d' with
  | some c2 =>
    have h1 : ((t.stateOp d).1.ensure d').1 = (t.stateOp d).1 := by
      rw [ensure_char_some (t.stateOp d).1 d' c2 hl]
    have h2 : ((t.stateOp d).1.ensure d').2 = c2 := by
      rw [ensure_char_some (t.stateOp d).1 d' c2 hl]
    have hc2 : c2 < (t.ensure d).1.nextCell :=
      lookupCell_bound (t.stateOp d).1 d' c2 (t.ensure d).1.nextCell hWF1 hl
    rw [h1, h2, if_neg (by
      show ¬ (t.stateOp d).2 = c2
      show ¬ (t.ensure d).1.nextCell = c2
      omega)]
  | none =>
    have h1 : ((t.stateOp d).1.ensure d').1
        = ⟨fun i => if i = (t.stateOp d).1.nextCell then constScores 0
                    else (t.stateOp d).1.cells i,
           (t.stateOp d).1.nextCell + 1,
           (t.stateOp d).1.liveCell ++ [(d', (t.stateOp d).1.nextCell)]⟩ := by
      rw [ensure_char_none (t.stateOp d).1 d' hl]
    have h2 : ((t.stateOp d).1.ensure d').2 = (t.stateOp d).1.nextCell := by
      rw [ensure_char_none (t.stateOp d).1 d' hl]
    have hnext : (t.stateOp d).1.nextCell = (t.ensure d).1.nextCell + 1 := rfl
    have hsnap : (t.stateOp d).2 = (t.ensure d).1.nextCell := rfl
    rw [h1, h2, if_neg (by rw [hnext, hsnap]; omega)]
    show (if (t.stateOp d).2 = (t.stateOp d).1.nextCell then constScores 0
          else (t.stateOp d).1.cells (t.stateOp d).2)
        = (t.stateOp d).1.cells (t.stateOp d).2
    rw [if_neg (by rw [hnext, hsnap]; omega)]

def exTS : TrackerStore := ⟨fun _ => constScores 0, 0, []⟩

theorem c8_snapshot_immutable_witness :
    ((exTS.stateOp "a.test").1.updateOp "a.test" (constScores 1)).cells
        (exTS.stateOp "a.test").2
      = (exTS.stateOp "a.test").1.cells (exTS.stateOp "a.test").2 :=
  c8_snapshot_immutable exTS "a.test" "a.test" (constScores 1)
    (fun p hp => absurd hp (List.not_mem_nil p))

/-- C7: in every reachable crawl state — i.e. after every completed
orchestrator transition: processing a response (which includes link
discovery), handling an off-domain drop, or a periodic sweep — every node
of the crawl graph has its `scores` attribute present if and only if
`visited` is true. -/
theorem c7_scores_iff_visited (keys : List String) (gamma : ℚ)
    (s : SysState) (h : Reach keys gamma s) : ScoresIffVisited s.q.G :=
  (sysInv_reach keys gamma s h).2.2.1

theorem c7_scores_iff_visited_witness :
    (((applyResponse (initSys exKeys exGamma) exResp).q.G.attrs 0).scores).isSome
      = ((applyResponse (initSys exKeys exGamma) exResp).q.G.attrs 0).visited :=
  c7_scores_iff_visited exKeys exGamma
    (applyResponse (initSys exKeys exGamma) exResp)
    (Reach.seed (initSys exKeys exGamma) exResp Reach.init rfl) 0

/-- C10: node identity is tested by truthiness, so a dropped request with
`node_id = 0` is handled exactly like one with no node id (skipped, no
graph update), and the sweep's priority function returns the previous
priority for `node_id = 0`; this coincides with absence only because in
every reachable crawl state no pending request carries node id 0 — the
counter's first id (0) always goes to a seed response node, which is
visited once the counter has moved. -/
theorem c10_truthiness (st : QState) (r : QRequest) (d : String)
    (keys : List String) (gamma : ℚ) (s : SysState)
    (h : Reach keys gamma s) :
    onOffdomainDrop st { r with nodeId := some 0 }
        = onOffdomainDrop st { r with nodeId := none }
    ∧ onOffdomainDrop st { r with nodeId := some 0 } = st
    ∧ getPriorityFn st d { r with nodeId := some 0 } = r.priority
    ∧ s.pending.all (fun r' => !(r'.nodeId == some 0)) = true
    ∧ (s.q.nodeIds == 0 || (s.q.G.attrs 0).visited) = true := by
  have hInv := sysInv_reach keys gamma s h
  refine ⟨?_, ?_, rfl, ?_, ?_⟩
  · rw [drop_char_zero st _ rfl, drop_char_none st _ rfl]
  · exact drop_char_zero st _ rfl
  · rw [List.all_eq_true]
    intro r' hr'
    obtain ⟨n, hn1, hn2, _⟩ := hInv.1 r' hr'
    simp only [hn1, Bool.not_eq_true', beq_eq_false_iff_ne, ne_eq,
               Option.some.injEq]
    omega
  · rcases Nat.eq_zero_or_pos s.q.nodeIds with h0 | h0
    · rw [h0]
      rfl
    · rw [hInv.2.2.2 h0, Bool.or_true]

theorem c10_truthiness_witness :
    onOffdomainDrop exSt { exReq6 with nodeId := some 0 }
        = onOffdomainDrop exSt { exReq6 with nodeId := none }
    ∧ onOffdomainDrop exSt { exReq6 with nodeId := some 0 } = exSt
    ∧ getPriorityFn exSt "a.test" { exReq6 with nodeId := some 0 }
        = exReq6.priority
    ∧ (initSys exKeys exGamma).pending.all
        (fun r' => !(r'.nodeId == some 0)) = true
    ∧ ((initSys exKeys exGamma).q.nodeIds == 0
        || ((initSys exKeys exGamma).q.G.attrs 0).visited) = true :=
  c10_truthiness exSt exReq6 "a.test" exKeys exGamma
    (initSys exKeys exGamma) Reach.init
